import Mathlib

/-
Shallow embedding of the session lifecycle and streaming relay of
`src/main.py` (ticketease-backend).

Modelling conventions:
- Timestamps (`datetime.now()`) are natural numbers counting seconds;
  `timedelta(minutes=30)` becomes `30 * 60`.  `datetime` subtraction is
  modelled with truncated `Nat` subtraction, which agrees with the Python
  comparison `(now - last_active) > SESSION_EXPIRY` whenever `now` is not
  earlier than `last_active` (and both sides are `False` otherwise).
- The in-memory dict `active_sessions` is an association list
  `List (String × Session)`; dict lookup is `List.lookup`, in-place
  mutation of the object stored under a key is `store_set`, and dict
  deletion of a list of keys is a filter on those keys.
- `str(uuid.uuid4())` is modelled by a caller-supplied `newId : String`;
  facts guaranteed by the uuid library (freshness with respect to the
  store, non-emptiness) appear as explicit hypotheses where needed.
- A provider stream (`groq` chat completion with `stream=True`) either
  yields a finite list of chunks and then signals end-of-stream
  (`ProviderResult.ok`), or raises after yielding a finite prefix of
  chunks (`ProviderResult.fail`, covering a raise at the `create` call
  itself with an empty prefix).  A chunk carries `choices`, each choice an
  optional `delta`, each delta an optional `content` string; the Python
  truthiness test `chunk.choices and chunk.choices[0].delta and
  chunk.choices[0].delta.content` is `chunk_text` below (an empty string
  is falsy in Python).
- The SSE lines `data: {...}` are modelled by the `Envelope` type; the
  literal terminal line `data: [DONE]` is `Envelope.done`.
-/

namespace TicketEase

/-- The fixed system instruction prompt (`SYSTEM_PROMPT` in `src/main.py`). -/
def SYSTEM_PROMPT : String :=
  "\nYou are a helpful ticket booking assistant that helps users book tickets for various events and appointments.\nYou can handle bookings for:\n1. Doctor appointments\n2. Amusement park tickets\n3. Movie tickets\n4. Concert tickets\n5. Sports events\n6. And other similar bookings\n\nYour job is to collect booking information gradually and naturally in a conversation, even if the user provides it across multiple messages.\n\nInstructions:\n- Keep track of the conversation context. Assume the user is continuing from the last message unless they clearly start a new request.\n- If a user says something like \"Book any ticket of Arijit Singh concert,\" begin the concert ticket booking process with that artist.\n- If the next message is \"2,\" understand that it likely means 2 tickets (especially if number of tickets hasn't been confirmed yet with previous message contexts).\n- For vague requests like \"book any two tickets,\" proceed using the most recent relevant booking details you have gathered so far.\n- Before finalizing, confirm with the user: \"Are you sure you want to confirm your booking with these details?\"\n- After confirmation, provide a fake booking confirmation number in the format: BOOK-XXXX-XXXX, where X is an alphanumeric character.\n\nIf at any point you don't have enough context (e.g., no type of booking or no event name), politely ask the user for the missing details.\n\nAlways be friendly, helpful, and concise in your responses.\n"

/-- Session expiry window: `SESSION_EXPIRY = timedelta(minutes=30)`, in seconds. -/
def SESSION_EXPIRY : Nat := 30 * 60

/-- A transcript entry: the dicts `{"role": ..., "content": ...}` of `src/main.py`. -/
structure Message where
  role : String
  content : String
deriving DecidableEq

/-- The `Session` class: ordered transcript plus last-activity timestamp. -/
structure Session where
  messages : List Message
  last_active : Nat
deriving DecidableEq

/-- `Session.__init__`: seeds the transcript with the fixed system message. -/
def Session.init (now : Nat) : Session :=
  ⟨[⟨"system", SYSTEM_PROMPT⟩], now⟩

/-- `Session.add_message`: append one message and refresh `last_active`. -/
def Session.add_message (s : Session) (role content : String) (now : Nat) : Session :=
  ⟨s.messages ++ [⟨role, content⟩], now⟩

/-- `Session.is_expired`: `(datetime.now() - self.last_active) > SESSION_EXPIRY`. -/
def Session.is_expired (s : Session) (now : Nat) : Bool :=
  decide (SESSION_EXPIRY < now - s.last_active)

/-- `Session.get_messages`. -/
def Session.get_messages (s : Session) : List Message :=
  s.messages

/-- The `active_sessions` dict: an association list keyed by session id. -/
abbrev Store : Type := List (String × Session)

/-- The list comprehension `[sid for sid, session in active_sessions.items() if session.is_expired()]`. -/
def expired_ids (st : Store) (now : Nat) : List String :=
  (List.filter (fun p => p.2.is_expired now) st).map Prod.fst

/-- `clean_expired_sessions`: collect the expired ids, then delete each from the dict. -/
def clean_expired_sessions (st : Store) (now : Nat) : Store :=
  List.filter (fun p => !((expired_ids st now).contains p.1)) st

/-- A streamed completion delta (`chunk.choices[0].delta`). -/
structure Delta where
  content : Option String
deriving DecidableEq

/-- One element of `chunk.choices`. -/
structure Choice where
  delta : Option Delta
deriving DecidableEq

/-- One chunk of the provider stream. -/
structure Chunk where
  choices : List Choice
deriving DecidableEq

/-- The truthiness guard of the streaming loop:
`chunk.choices and chunk.choices[0].delta and chunk.choices[0].delta.content`,
returning the content exactly when every test passes (an empty string is
falsy in Python, so it is rejected). -/
def chunk_text (c : Chunk) : Option String :=
  match c.choices with
  | [] => none
  | ch :: _ =>
    match ch.delta with
    | none => none
    | some d =>
      match d.content with
      | none => none
      | some s => if s = "" then none else some s

/-- One SSE event of the response stream: the JSON payloads
`{"type": "session", ...}`, `{"type": "text", ...}`, `{"type": "error", ...}`
and the literal terminal line `[DONE]`. -/
inductive Envelope where
  | session (session_id : String)
  | text (value : String)
  | error (value : String)
  | done
deriving DecidableEq

/-- Outcome of the provider call plus chunk iteration: normal end-of-stream
after `chunks`, or a raise after the prefix `pre` (with `msg = str(e)`). -/
inductive ProviderResult where
  | ok (chunks : List Chunk)
  | fail (pre : List Chunk) (msg : String)
deriving DecidableEq

/-- The `text` envelopes emitted by the streaming loop for a chunk list. -/
def text_events (chunks : List Chunk) : List Envelope :=
  (chunks.filterMap chunk_text).map Envelope.text

/-- The accumulation `full_response += content` over the streaming loop. -/
def full_response (chunks : List Chunk) : String :=
  (chunks.filterMap chunk_text).foldl (fun r s => r ++ s) ""

/-- `stream_generator` (lines 120-161 of `src/main.py`): the session envelope,
then on a normal provider stream the `text` envelopes, the assistant append,
and `[DONE]`; on a provider raise the `text` envelopes of the prefix, one
`error` envelope, and `[DONE]` with no append.  Returns the emitted envelopes
in order together with the session object as left by the generator. -/
def stream_generator (session_id : String) (session : Session) (pr : ProviderResult)
    (now : Nat) : List Envelope × Session :=
  match pr with
  | ProviderResult.ok chunks =>
    (Envelope.session session_id :: (text_events chunks ++ [Envelope.done]),
     session.add_message "assistant" (full_response chunks) now)
  | ProviderResult.fail pre msg =>
    (Envelope.session session_id ::
       (text_events pre ++ [Envelope.error ("Error generating response: " ++ msg), Envelope.done]),
     session)

/-- The get-or-create block of `chat` (lines 110-115):
`if not session_id or session_id not in active_sessions:` allocate a fresh id
(modelled by `newId`) and insert a fresh session; otherwise use the stored one.
Returns the resolved id, the resolved session object, and the store. -/
def resolve (st : Store) (sidOpt : Option String) (newId : String) (now : Nat) :
    String × Session × Store :=
  match sidOpt with
  | none => (newId, Session.init now, st ++ [(newId, Session.init now)])
  | some t =>
    if t = "" then
      (newId, Session.init now, st ++ [(newId, Session.init now)])
    else
      match List.lookup t st with
      | none => (newId, Session.init now, st ++ [(newId, Session.init now)])
      | some s => (t, s, st)

/-- In-place mutation of the session object stored under `sid`. -/
def store_set (st : Store) (sid : String) (s : Session) : Store :=
  st.map (fun p => if p.1 = sid then (p.1, s) else p)

/-- The `/chat` handler: sweep, resolve, append the user message, then run
`stream_generator` against the provider outcome `pr`.  Returns the emitted
envelopes and the final store. -/
def chat (st : Store) (query : String) (sidOpt : Option String) (newId : String)
    (pr : ProviderResult) (now : Nat) : List Envelope × Store :=
  let st1 := clean_expired_sessions st now
  let r := resolve st1 sidOpt newId now
  let session_id := r.1
  let withUser := r.2.1.add_message "user" query now
  let st2 := store_set r.2.2 session_id withUser
  let out := stream_generator session_id withUser pr now
  (out.1, store_set st2 session_id out.2)

/-! ### Basic lemmas about the streaming loop -/

theorem chunk_text_ne_empty {c : Chunk} {v : String} (h : chunk_text c = some v) :
    v ≠ "" := by
  rcases c with ⟨choices⟩
  cases choices with
  | nil => simp [chunk_text] at h
  | cons ch rest =>
    rcases ch with ⟨delta⟩
    cases delta with
    | none => simp [chunk_text] at h
    | some d =>
      rcases d with ⟨content⟩
      cases content with
      | none => simp [chunk_text] at h
      | some s =>
        simp only [chunk_text] at h
        split at h
        · simp at h
        · cases Option.some.inj h
          assumption

theorem text_events_mem {chunks : List Chunk} {e : Envelope} (h : e ∈ text_events chunks) :
    ∃ v, e = Envelope.text v ∧ v ≠ "" := by
  unfold text_events at h
  rcases List.mem_map.mp h with ⟨v, hv, rfl⟩
  rcases List.mem_filterMap.mp hv with ⟨c, _, hc⟩
  exact ⟨v, rfl, chunk_text_ne_empty hc⟩

/-- Predicate selecting `error` envelopes. -/
def is_error_env : Envelope → Bool
  | Envelope.error _ => true
  | _ => false

/-- Predicate selecting the terminal marker. -/
def is_done_env : Envelope → Bool
  | Envelope.done => true
  | _ => false

theorem text_events_countP_error (chunks : List Chunk) :
    (text_events chunks).countP is_error_env = 0 := by
  rw [List.countP_eq_zero]
  intro e he
  rcases text_events_mem he with ⟨v, rfl, _⟩
  simp [is_error_env]

theorem text_events_countP_done (chunks : List Chunk) :
    (text_events chunks).countP is_done_env = 0 := by
  rw [List.countP_eq_zero]
  intro e he
  rcases text_events_mem he with ⟨v, rfl, _⟩
  simp [is_done_env]

/-- C1: when the provider stream fails (at the `create` call or after any
prefix of chunks), `stream_generator` leaves the session untouched — no
assistant message is appended — and the emitted envelope list is the session
envelope, the text envelopes of the prefix, then exactly one error envelope
carrying the human-readable message, then the terminal marker and nothing
after it. -/
theorem c1_failure_no_append_single_error (sid : String) (s : Session)
    (pre : List Chunk) (msg : String) (now : Nat) :
    (stream_generator sid s (ProviderResult.fail pre msg) now).2 = s ∧
    (stream_generator sid s (ProviderResult.fail pre msg) now).1 =
      Envelope.session sid ::
        (text_events pre ++
          [Envelope.error ("Error generating response: " ++ msg), Envelope.done]) ∧
    ((stream_generator sid s (ProviderResult.fail pre msg) now).1.countP is_error_env) = 1 ∧
    ((stream_generator sid s (ProviderResult.fail pre msg) now).1.countP is_done_env) = 1 ∧
    (stream_generator sid s (ProviderResult.fail pre msg) now).1.getLast? =
      some Envelope.done := by
  refine ⟨rfl, rfl, ?_, ?_, ?_⟩
  · simp [stream_generator, List.countP_cons, List.countP_append,
      text_events_countP_error, is_error_env, is_done_env]
  · simp [stream_generator, List.countP_cons, List.countP_append,
      text_events_countP_done, is_error_env, is_done_env]
  · show (Envelope.session sid ::
        (text_events pre ++
          [Envelope.error ("Error generating response: " ++ msg), Envelope.done])).getLast? =
      some Envelope.done
    rw [show Envelope.session sid ::
        (text_events pre ++
          [Envelope.error ("Error generating response: " ++ msg), Envelope.done]) =
      (Envelope.session sid ::
        (text_events pre ++ [Envelope.error ("Error generating response: " ++ msg)])) ++
        [Envelope.done] by simp]
    exact List.getLast?_concat _

/-! ### Transcript growth (C2) -/

/-- One complete turn of the handler at the session level: the user message is
appended by `chat`, then `stream_generator` runs against the provider
outcome. -/
def run_turn (sid query : String) (pr : ProviderResult) (now : Nat) (s : Session) : Session :=
  (stream_generator sid (s.add_message "user" query now) pr now).2

/-- A sequence of successful turns, each given by a query and the provider
chunks of its reply. -/
def run_turns (sid : String) (now : Nat) (turns : List (String × List Chunk))
    (s : Session) : Session :=
  turns.foldl (fun s t => run_turn sid t.1 (ProviderResult.ok t.2) now s) s

theorem run_turn_ok_length (sid query : String) (chunks : List Chunk) (now : Nat)
    (s : Session) :
    (run_turn sid query (ProviderResult.ok chunks) now s).messages.length =
      s.messages.length + 2 := by
  simp [run_turn, stream_generator, Session.add_message]

theorem run_turns_length (sid : String) (now : Nat) (turns : List (String × List Chunk)) :
    ∀ s : Session, (run_turns sid now turns s).messages.length =
      s.messages.length + 2 * turns.length := by
  induction turns with
  | nil => intro s; simp [run_turns]
  | cons t rest ih =>
    intro s
    show (run_turns sid now rest (run_turn sid t.1 (ProviderResult.ok t.2) now s)).messages.length = _
    rw [ih, run_turn_ok_length]
    simp [Nat.mul_succ]
    omega

/-- C2: starting from a fresh session, after `N` successful exchanges the
transcript has length `1 + 2 * N`; if one more exchange is attempted and its
provider call fails, only the user message of the failed turn is retained,
giving length `1 + 2 * N + 1` (with `N` the number of earlier successful
exchanges). -/
theorem c2_transcript_growth (sid : String) (now now0 : Nat)
    (turns : List (String × List Chunk)) (query failMsg : String) (pre : List Chunk) :
    (run_turns sid now turns (Session.init now0)).messages.length =
      1 + 2 * turns.length ∧
    (run_turn sid query (ProviderResult.fail pre failMsg) now
        (run_turns sid now turns (Session.init now0))).messages.length =
      1 + 2 * turns.length + 1 := by
  have hbase : (Session.init now0).messages.length = 1 := by simp [Session.init]
  have h1 := run_turns_length sid now turns (Session.init now0)
  rw [hbase] at h1
  constructor
  · omega
  · show ((run_turns sid now turns (Session.init now0)).add_message "user" query now).messages.length = _
    simp [Session.add_message]
    omega

/-! ### Store lookup lemmas -/

theorem lookup_mem {st : Store} {k : String} {v : Session}
    (h : List.lookup k st = some v) : (k, v) ∈ st := by
  rcases List.lookup_eq_some_iff.mp h with ⟨l₁, l₂, rfl, _⟩
  simp

theorem lookup_not_mem_keys {st : Store} {k : String}
    (h : List.lookup k st = none) : k ∉ st.map Prod.fst := by
  intro hk
  rcases List.mem_map.mp hk with ⟨p, hp, rfl⟩
  have := List.lookup_eq_none_iff.mp h p hp
  simp at this

/-- C3: session resolution in `chat` (lines 110-115).  If the provided id maps
to a stored session, that id and session are returned with the store
unchanged; if the id is absent (in particular just swept), or no id was
provided, the fresh id `newId` is paired with a brand-new session holding
exactly the fixed system message, the pair is inserted, and key uniqueness of
the store is preserved.  (`hkeys` and `hnodup` are the dict invariants: every
stored key is a non-empty uuid string and keys are unique; `hfresh` is the
uuid4 freshness guarantee.) -/
theorem c3_resolve_get_or_create (st : Store) (sid newId : String) (now : Nat)
    (hkeys : ∀ p ∈ st, p.1 ≠ "")
    (hnodup : (st.map Prod.fst).Nodup)
    (hfresh : List.lookup newId st = none) :
    (∀ s, List.lookup sid st = some s → resolve st (some sid) newId now = (sid, s, st)) ∧
    (List.lookup sid st = none →
      resolve st (some sid) newId now =
        (newId, Session.init now, st ++ [(newId, Session.init now)])) ∧
    resolve st none newId now = (newId, Session.init now, st ++ [(newId, Session.init now)]) ∧
    (Session.init now).messages = [⟨"system", SYSTEM_PROMPT⟩] ∧
    List.lookup newId (st ++ [(newId, Session.init now)]) = some (Session.init now) ∧
    ((st ++ [(newId, Session.init now)]).map Prod.fst).Nodup := by
  refine ⟨?_, ?_, rfl, rfl, ?_, ?_⟩
  · intro s h
    have hne : sid ≠ "" := hkeys (sid, s) (lookup_mem h)
    simp [resolve, hne, h]
  · intro h
    by_cases hs : sid = "" <;> simp [resolve, hs, h]
  · rw [List.lookup_append, hfresh]
    simp
  · rw [List.map_append, List.nodup_append]
    refine ⟨hnodup, by simp, ?_⟩
    intro a ha hb
    simp only [List.map_cons, List.map_nil, List.mem_singleton] at hb
    subst hb
    exact lookup_not_mem_keys hfresh ha

/-- Witness for C3 at a concrete store. -/
theorem c3_resolve_get_or_create_witness :
    resolve [("a", Session.mk [] 3)] (some "a") "b" 5 =
      ("a", Session.mk [] 3, [("a", Session.mk [] 3)]) :=
  (c3_resolve_get_or_create [("a", Session.mk [] 3)] "a" "b" 5
    (by decide) (by decide) (by decide)).1 (Session.mk [] 3) (by simp)

/-! ### Transcript shape invariants (C4) -/

/-- The transcript-mutating operations the core ever performs on a session:
the `user` append of the handler and the `assistant` append of the relay. -/
inductive SessionOp where
  | user (content : String) (now : Nat)
  | assistant (content : String) (now : Nat)

def apply_op (s : Session) (op : SessionOp) : Session :=
  match op with
  | SessionOp.user c n => s.add_message "user" c n
  | SessionOp.assistant c n => s.add_message "assistant" c n

def apply_ops (s : Session) (ops : List SessionOp) : Session :=
  ops.foldl apply_op s

theorem apply_ops_messages (ops : List SessionOp) :
    ∀ s : Session, ∃ t, (apply_ops s ops).messages = s.messages ++ t ∧
      ∀ m ∈ t, m.role = "user" ∨ m.role = "assistant" := by
  induction ops with
  | nil => intro s; exact ⟨[], by simp [apply_ops], by simp⟩
  | cons op rest ih =>
    intro s
    rcases ih (apply_op s op) with ⟨t, ht, hroles⟩
    cases op with
    | user c n =>
      refine ⟨⟨"user", c⟩ :: t, ?_, ?_⟩
      · show (apply_ops (apply_op s (SessionOp.user c n)) rest).messages = _
        rw [ht]
        simp [apply_op, Session.add_message]
      · intro m hm
        rcases List.mem_cons.mp hm with rfl | hm
        · exact Or.inl rfl
        · exact hroles m hm
    | assistant c n =>
      refine ⟨⟨"assistant", c⟩ :: t, ?_, ?_⟩
      · show (apply_ops (apply_op s (SessionOp.assistant c n)) rest).messages = _
        rw [ht]
        simp [apply_op, Session.add_message]
      · intro m hm
        rcases List.mem_cons.mp hm with rfl | hm
        · exact Or.inr rfl
        · exact hroles m hm

/-- C4: from creation, under any sequence of the operations the core performs
(user appends, assistant appends), the transcript always starts with the
system message, contains exactly one system-role message, is only ever
extended (the earlier transcript is a prefix of any later one, so its length
never decreases), and the expiry sweep never alters a surviving session. -/
theorem c4_transcript_shape_invariant (now0 : Nat) (ops extra : List SessionOp)
    (st : Store) (now : Nat) :
    (apply_ops (Session.init now0) ops).messages.head? =
      some ⟨"system", SYSTEM_PROMPT⟩ ∧
    ((apply_ops (Session.init now0) ops).messages.filter
        (fun m => m.role == "system")).length = 1 ∧
    (∃ t, (apply_ops (Session.init now0) (ops ++ extra)).messages =
        (apply_ops (Session.init now0) ops).messages ++ t) ∧
    (apply_ops (Session.init now0) ops).messages.length ≤
      (apply_ops (Session.init now0) (ops ++ extra)).messages.length ∧
    (∀ p ∈ clean_expired_sessions st now, p ∈ st) := by
  rcases apply_ops_messages ops (Session.init now0) with ⟨t, ht, hroles⟩
  have happ : apply_ops (Session.init now0) (ops ++ extra) =
      apply_ops (apply_ops (Session.init now0) ops) extra := by
    simp [apply_ops]
  rcases apply_ops_messages extra (apply_ops (Session.init now0) ops) with ⟨t2, ht2, _⟩
  refine ⟨?_, ?_, ?_, ?_, ?_⟩
  · rw [ht]
    simp [Session.init]
  · rw [ht]
    show ((((Session.init now0).messages) ++ t).filter (fun m => m.role == "system")).length = 1
    rw [List.filter_append]
    have htf : t.filter (fun m => m.role == "system") = [] := by
      rw [List.filter_eq_nil_iff]
      intro m hm
      rcases hroles m hm with h | h <;> simp [h]
    rw [htf]
    simp [Session.init]
  · exact ⟨t2, by rw [happ, ht2]⟩
  · rw [happ, ht2]
    simp
  · intro p hp
    exact List.mem_of_mem_filter hp

/-- Witness for C4 at a concrete session history and store. -/
theorem c4_transcript_shape_invariant_witness :
    (apply_ops (Session.init 0) [SessionOp.user "hi" 1]).messages.head? =
      some ⟨"system", SYSTEM_PROMPT⟩ ∧
    ("a", Session.mk [] 0) ∈ ([("a", Session.mk [] 0)] : Store) :=
  ⟨(c4_transcript_shape_invariant 0 [SessionOp.user "hi" 1] [] [] 0).1,
   (c4_transcript_shape_invariant 0 [] [] [("a", Session.mk [] 0)] 0).2.2.2.2
     ("a", Session.mk [] 0) (by decide)⟩

/-! ### The session envelope (C5) -/

theorem resolve_id_none (st : Store) (newId : String) (now : Nat) :
    (resolve st none newId now).1 = newId := rfl

theorem resolve_id_not_found {st : Store} {sid : String} (newId : String) (now : Nat)
    (h : List.lookup sid st = none) :
    (resolve st (some sid) newId now).1 = newId := by
  by_cases hs : sid = "" <;> simp [resolve, hs, h]

theorem resolve_id_found {st : Store} {sid : String} {s : Session} (newId : String)
    (now : Nat) (h : List.lookup sid st = some s) (hne : sid ≠ "") :
    (resolve st (some sid) newId now).1 = sid := by
  simp [resolve, hne, h]

theorem chat_head (st : Store) (query : String) (sidOpt : Option String)
    (newId : String) (pr : ProviderResult) (now : Nat) :
    (chat st query sidOpt newId pr now).1.head? =
      some (Envelope.session (resolve (clean_expired_sessions st now) sidOpt newId now).1) := by
  cases pr <;> simp [chat, stream_generator]

/-- C5: the first envelope of every response is a `session` envelope; when no
live session id was supplied (none, or an id that is absent from the store
after the sweep) it carries the freshly generated, non-empty id; when a live
session id is reused it carries exactly the id that was passed in.
(`hne` is the uuid4 non-emptiness guarantee, `hkeys` the invariant that all
stored keys are non-empty uuid strings.) -/
theorem c5_first_envelope_session_id (st : Store) (query sid newId : String)
    (pr : ProviderResult) (now : Nat)
    (hne : newId ≠ "")
    (hkeys : ∀ p ∈ st, p.1 ≠ "") :
    (∀ sidOpt : Option String, ∃ i, i ≠ "" ∧
        (chat st query sidOpt newId pr now).1.head? = some (Envelope.session i)) ∧
    (chat st query none newId pr now).1.head? = some (Envelope.session newId) ∧
    (List.lookup sid (clean_expired_sessions st now) = none →
      (chat st query (some sid) newId pr now).1.head? = some (Envelope.session newId)) ∧
    (∀ s, List.lookup sid (clean_expired_sessions st now) = some s →
      (chat st query (some sid) newId pr now).1.head? = some (Envelope.session sid)) := by
  have hkeys2 : ∀ p ∈ clean_expired_sessions st now, p.1 ≠ "" := by
    intro p hp
    exact hkeys p (List.mem_of_mem_filter hp)
  refine ⟨?_, ?_, ?_, ?_⟩
  · intro sidOpt
    cases sidOpt with
    | none =>
      exact ⟨newId, hne, by rw [chat_head, resolve_id_none]⟩
    | some t =>
      cases hl : List.lookup t (clean_expired_sessions st now) with
      | none =>
        exact ⟨newId, hne, by rw [chat_head, resolve_id_not_found newId now hl]⟩
      | some s =>
        have htne : t ≠ "" := hkeys2 (t, s) (lookup_mem hl)
        exact ⟨t, htne, by rw [chat_head, resolve_id_found newId now hl htne]⟩
  · rw [chat_head, resolve_id_none]
  · intro h
    rw [chat_head, resolve_id_not_found newId now h]
  · intro s h
    have hsne : sid ≠ "" := hkeys2 (sid, s) (lookup_mem h)
    rw [chat_head, resolve_id_found newId now h hsne]

/-- Witness for C5 at a concrete request. -/
theorem c5_first_envelope_session_id_witness :
    (chat [] "hi" none "b" (ProviderResult.ok []) 0).1.head? =
      some (Envelope.session "b") :=
  (c5_first_envelope_session_id [] "hi" "x" "b" (ProviderResult.ok []) 0
    (by decide) (by decide)).2.1

/-! ### Normal completion (C6) -/

/-- The values carried by the `text` envelopes of an event list, in order. -/
def text_values (events : List Envelope) : List String :=
  events.filterMap (fun e =>
    match e with
    | Envelope.text v => some v
    | _ => none)

theorem text_values_of_text_events (chunks : List Chunk) :
    text_values (text_events chunks) = chunks.filterMap chunk_text := by
  simp [text_values, text_events, List.filterMap_map]
  exact List.filterMap_some _

/-- C6: when the provider stream completes normally, exactly one assistant
message is appended to the transcript, its content is the in-order
concatenation of the values of all `text` envelopes emitted during the
request, and the event list is the session envelope, the text envelopes, and
the terminal marker last. -/
theorem c6_normal_completion_appends_accumulated_reply (sid : String) (s : Session)
    (chunks : List Chunk) (now : Nat) :
    (stream_generator sid s (ProviderResult.ok chunks) now).2.messages =
      s.messages ++ [⟨"assistant", full_response chunks⟩] ∧
    full_response chunks =
      String.join (text_values (stream_generator sid s (ProviderResult.ok chunks) now).1) ∧
    (stream_generator sid s (ProviderResult.ok chunks) now).1 =
      Envelope.session sid :: (text_events chunks ++ [Envelope.done]) ∧
    (stream_generator sid s (ProviderResult.ok chunks) now).1.getLast? =
      some Envelope.done := by
  refine ⟨rfl, ?_, rfl, ?_⟩
  · show full_response chunks =
      String.join (text_values
        (Envelope.session sid :: (text_events chunks ++ [Envelope.done])))
    have hv : text_values (Envelope.session sid :: (text_events chunks ++ [Envelope.done])) =
        chunks.filterMap chunk_text := by
      show text_values (text_events chunks ++ [Envelope.done]) = _
      simp only [text_values, List.filterMap_append]
      rw [show (text_events chunks).filterMap (fun e =>
          match e with
          | Envelope.text v => some v
          | _ => none) = text_values (text_events chunks) from rfl]
      rw [text_values_of_text_events]
      simp
    rw [hv]
    rfl
  · show (Envelope.session sid :: (text_events chunks ++ [Envelope.done])).getLast? =
      some Envelope.done
    rw [show Envelope.session sid :: (text_events chunks ++ [Envelope.done]) =
      (Envelope.session sid :: text_events chunks) ++ [Envelope.done] by simp]
    exact List.getLast?_concat _

/-! ### The expiry sweep (C7, C8) -/

theorem mem_expired_ids {st : Store} {now : Nat} {k : String}
    (h : k ∈ expired_ids st now) :
    ∃ q ∈ st, q.1 = k ∧ q.2.is_expired now = true := by
  rcases List.mem_map.mp h with ⟨q, hq, rfl⟩
  rcases List.mem_filter.mp hq with ⟨hq1, hq2⟩
  exact ⟨q, hq1, rfl, hq2⟩

theorem expired_ids_mem {st : Store} {now : Nat} {p : String × Session}
    (hp : p ∈ st) (hex : p.2.is_expired now = true) :
    p.1 ∈ expired_ids st now :=
  List.mem_map.mpr ⟨p, List.mem_filter.mpr ⟨hp, hex⟩, rfl⟩

theorem mem_clean_iff {st : Store} {now : Nat} {p : String × Session} :
    p ∈ clean_expired_sessions st now ↔
      p ∈ st ∧ p.1 ∉ expired_ids st now := by
  unfold clean_expired_sessions
  rw [List.mem_filter]
  simp

theorem mem_clean_not_expired {st : Store} {now : Nat} {p : String × Session}
    (hp : p ∈ clean_expired_sessions st now) : p.2.is_expired now = false := by
  rcases mem_clean_iff.mp hp with ⟨hmem, hnot⟩
  cases hex : p.2.is_expired now with
  | false => rfl
  | true => exact absurd (expired_ids_mem hmem hex) hnot

/-- C7: the sweep removes exactly the sessions whose inactivity exceeds the
30-minute window (strictly), keeps every other entry untouched, and a resolve
with the id of a swept (or otherwise absent) session yields a brand-new
session containing only the system message.  (`hnodup` is the dict invariant
of unique keys.) -/
theorem c7_sweep_removes_exactly_expired (st : Store) (now : Nat) (newId : String)
    (hnodup : (st.map Prod.fst).Nodup) :
    (∀ p, p ∈ clean_expired_sessions st now ↔
        (p ∈ st ∧ now - p.2.last_active ≤ SESSION_EXPIRY)) ∧
    (∀ sid s, List.lookup sid st = some s → s.is_expired now = true →
        List.lookup sid (clean_expired_sessions st now) = none) ∧
    (∀ sid, List.lookup sid (clean_expired_sessions st now) = none →
        (resolve (clean_expired_sessions st now) (some sid) newId now).2.1.messages =
          [⟨"system", SYSTEM_PROMPT⟩]) := by
  have hchar : ∀ p, p ∈ clean_expired_sessions st now ↔
      (p ∈ st ∧ now - p.2.last_active ≤ SESSION_EXPIRY) := by
    intro p
    constructor
    · intro hp
      have hex := mem_clean_not_expired hp
      have hmem := (mem_clean_iff.mp hp).1
      refine ⟨hmem, ?_⟩
      have := of_decide_eq_false hex
      omega
    · rintro ⟨hmem, hle⟩
      rw [mem_clean_iff]
      refine ⟨hmem, ?_⟩
      intro hin
      rcases mem_expired_ids hin with ⟨q, hq, hqk, hqex⟩
      have : q = p := List.inj_on_of_nodup_map hnodup hq hmem hqk
      subst this
      have := of_decide_eq_true hqex
      omega
  refine ⟨hchar, ?_, ?_⟩
  · intro sid s hlk hex
    rw [List.lookup_eq_none_iff]
    intro p hp
    rcases hchar p |>.mp hp with ⟨hmem, hle⟩
    by_contra hne
    simp only [bne_iff_ne, ne_eq, not_not] at hne
    have hps : (sid, s) ∈ st := lookup_mem hlk
    have : p = (sid, s) := List.inj_on_of_nodup_map hnodup hmem hps (by rw [hne])
    subst this
    have := of_decide_eq_true hex
    simp only at hle
    omega
  · intro sid h
    by_cases hs : sid = "" <;> simp [resolve, hs, h, Session.init]

/-- Witness for C7: a session last active at time 0 is removed by a sweep at
31 minutes, and resolving its id afterwards yields only the system message. -/
theorem c7_sweep_removes_exactly_expired_witness :
    List.lookup "a" (clean_expired_sessions [("a", Session.mk [] 0)] 1860) = none ∧
    (resolve (clean_expired_sessions [("a", Session.mk [] 0)] 1860)
        (some "a") "b" 1860).2.1.messages = [⟨"system", SYSTEM_PROMPT⟩] := by
  have h := c7_sweep_removes_exactly_expired [("a", Session.mk [] 0)] 1860 "b" (by decide)
  have h1 := h.2.1 "a" (Session.mk [] 0) (by simp) (by decide)
  exact ⟨h1, h.2.2 "a" h1⟩

/-- C8: the sweep is idempotent at a fixed time: a second immediate sweep
finds no expired session and leaves the store exactly as the first left it. -/
theorem c8_sweep_idempotent (st : Store) (now : Nat) :
    clean_expired_sessions (clean_expired_sessions st now) now =
      clean_expired_sessions st now ∧
    expired_ids (clean_expired_sessions st now) now = [] := by
  have hids : expired_ids (clean_expired_sessions st now) now = [] := by
    unfold expired_ids
    rw [List.map_eq_nil_iff, List.filter_eq_nil_iff]
    intro p hp
    simp [mem_clean_not_expired hp]
  refine ⟨?_, hids⟩
  have houter : clean_expired_sessions (clean_expired_sessions st now) now =
      List.filter
        (fun p => !((expired_ids (clean_expired_sessions st now) now).contains p.1))
        (clean_expired_sessions st now) := rfl
  rw [houter, hids]
  simp

/-! ### Session isolation (C9) -/

theorem store_set_lookup_ne (st : Store) (a b : String) (s' : Session) (hab : a ≠ b) :
    List.lookup b (store_set st a s') = List.lookup b st := by
  induction st with
  | nil => rfl
  | cons p t ih =>
    rcases p with ⟨k, v⟩
    show List.lookup b ((if k = a then (k, s') else (k, v)) :: store_set t a s') =
      List.lookup b ((k, v) :: t)
    by_cases hk : k = a
    · have hbk : (b == k) = false := by
        rw [beq_eq_false_iff_ne]
        intro hbk
        exact hab (by rw [← hk, ← hbk])
      rw [if_pos hk, List.lookup_cons, List.lookup_cons, hbk]
      exact ih
    · rw [if_neg hk, List.lookup_cons, List.lookup_cons]
      cases hbk : (b == k) with
      | true => rfl
      | false => exact ih

/-- C9: appending a message to the session stored under id `a` leaves the
session stored under any other id `b` entirely unchanged: the lookup of `b`
is literally the same before and after the in-place update, so `b`'s
transcript and timestamp are untouched and the appended message does not
appear in them. -/
theorem c9_append_does_not_touch_other_sessions (st : Store)
    (a b role content : String) (sa : Session) (now : Nat)
    (hab : a ≠ b) (ha : List.lookup a st = some sa) :
    List.lookup b (store_set st a (sa.add_message role content now)) =
      List.lookup b st ∧
    (∀ sb, List.lookup b st = some sb →
      List.lookup b (store_set st a (sa.add_message role content now)) = some sb) := by
  have h := store_set_lookup_ne st a b (sa.add_message role content now) hab
  exact ⟨h, fun sb hsb => by rw [h, hsb]⟩

/-- Witness for C9 at a concrete two-session store. -/
theorem c9_append_does_not_touch_other_sessions_witness :
    List.lookup "b"
        (store_set [("a", Session.mk [] 0), ("b", Session.mk [] 0)] "a"
          ((Session.mk [] 0).add_message "user" "hi" 7)) =
      List.lookup "b" [("a", Session.mk [] 0), ("b", Session.mk [] 0)] :=
  (c9_append_does_not_touch_other_sessions
    [("a", Session.mk [] 0), ("b", Session.mk [] 0)] "a" "b" "user" "hi"
    (Session.mk [] 0) 7 (by decide) (by simp)).1

/-! ### Text envelope non-emptiness (C10) -/

/-- C10: every `text` envelope carries a non-empty value; chunks with no
choices, an absent delta, or an absent or empty content string produce no
`text` envelope; a normally completing stream with no non-empty content
chunks emits only the session envelope and the terminal marker and appends an
assistant message with empty content. -/
theorem c10_no_empty_text_envelopes (sid : String) (s : Session)
    (chunks : List Chunk) (now : Nat) :
    (∀ v, Envelope.text v ∈ (stream_generator sid s (ProviderResult.ok chunks) now).1 →
      v ≠ "") ∧
    (∀ c : Chunk, c.choices = [] → chunk_text c = none) ∧
    (∀ c : Chunk, ∀ ch rest, c.choices = ch :: rest → ch.delta = none →
      chunk_text c = none) ∧
    (∀ c : Chunk, ∀ ch rest d, c.choices = ch :: rest → ch.delta = some d →
      (d.content = none ∨ d.content = some "") → chunk_text c = none) ∧
    ((∀ c ∈ chunks, chunk_text c = none) →
      (stream_generator sid s (ProviderResult.ok chunks) now).1 =
        [Envelope.session sid, Envelope.done] ∧
      (stream_generator sid s (ProviderResult.ok chunks) now).2.messages =
        s.messages ++ [⟨"assistant", ""⟩]) := by
  refine ⟨?_, ?_, ?_, ?_, ?_⟩
  · intro v hv
    simp only [stream_generator, List.mem_cons, List.mem_append,
      List.mem_singleton] at hv
    rcases hv with h | h | h
    · exact absurd h (by simp)
    · rcases text_events_mem h with ⟨v', heq, hne⟩
      cases heq
      exact hne
    · exact absurd h (by simp)
  · intro c h
    rcases c with ⟨cs⟩
    subst h
    rfl
  · intro c ch rest h hd
    rcases c with ⟨cs⟩
    subst h
    simp [chunk_text, hd]
  · intro c ch rest d h hd hc
    rcases c with ⟨cs⟩
    subst h
    rcases hc with hc | hc <;> simp [chunk_text, hd, hc]
  · intro h
    have hnil : chunks.filterMap chunk_text = [] :=
      List.filterMap_eq_nil_iff.mpr h
    constructor
    · simp [stream_generator, text_events, hnil]
    · simp [stream_generator, Session.add_message, full_response, hnil]

/-- Witness for C10: a chunk with empty `choices` produces nothing. -/
theorem c10_no_empty_text_envelopes_witness :
    (stream_generator "x" (Session.mk [] 0) (ProviderResult.ok [Chunk.mk []]) 0).1 =
      [Envelope.session "x", Envelope.done] :=
  ((c10_no_empty_text_envelopes "x" (Session.mk [] 0) [Chunk.mk []] 0).2.2.2.2
    (by decide)).1

end TicketEase
